import Mathlib

/-!
Verification development for the AI-Healthcare-Assistant server.

This file gives a shallow embedding, in Lean, of the parts of the
JavaScript server that the accompanying natural-language specification
talks about:

* `server/services/aiService.js` — `analyzeSymptoms`, `ruleBasedAssessment`,
  `parseFallbackResponse`, `chatResponse`, `validateResponse`;
* `server/models/Chat.js` — `addMessage` / `updateContext`;
* the chat-message route handler (maker-question short-circuit);
* the `userActionLimiter` middleware in the auth middleware file.

JavaScript strings are embedded as `List Char`, JS numbers appearing in
the assessed data as `Int` (all arithmetic here is exact integer
arithmetic in the source), and `JSON.parse` is modelled by an executable
recursive-descent parser `jsParse` over a `Json` inductive, restricted to
the JSON fragment the service's prompt specifies (integer numerals; no
unicode escapes).  Fallible steps return `Option`.
-/

/-- The characters of a string literal, the form in which the model
manipulates JS strings. -/
def chars (s : String) : List Char := s.data

/-- JS `String.prototype.toLowerCase()` on the ASCII fragment. -/
def lowerChars (s : List Char) : List Char := s.map Char.toLower

/-- Does `cs` start with `p`?  (Helper for substring search.) -/
def startsWithL : List Char → List Char → Bool
  | _, [] => true
  | [], _ :: _ => false
  | c :: cs, p :: ps => c = p && startsWithL cs ps

/-- JS `String.prototype.includes`: is `needle` a contiguous substring of
`hay`? -/
def containsSub (hay needle : List Char) : Bool :=
  match hay with
  | [] => needle.isEmpty
  | _ :: t => startsWithL hay needle || containsSub t needle

/-- JSON values, as produced by `JSON.parse`. -/
inductive Json where
  | null : Json
  | bool : Bool → Json
  | num : Int → Json
  | str : List Char → Json
  | arr : List Json → Json
  | obj : List (List Char × Json) → Json

/-- JSON insignificant whitespace. -/
def isWsChar (c : Char) : Bool :=
  c = ' ' || c = '\n' || c = '\t' || c = '\r'

/-- Skip leading JSON whitespace. -/
def skipWs : List Char → List Char
  | [] => []
  | c :: cs => if isWsChar c then skipWs cs else c :: cs

/-- ASCII decimal digit test. -/
def isDigitChar (c : Char) : Bool := '0' ≤ c && c ≤ '9'

/-- Value of an ASCII decimal digit. -/
def digitVal (c : Char) : Nat := c.toNat - '0'.toNat

/-- Split off a maximal run of leading digits. -/
def takeDigits : List Char → List Char × List Char
  | [] => ([], [])
  | c :: cs =>
    if isDigitChar c then
      let r := takeDigits cs
      (c :: r.1, r.2)
    else ([], c :: cs)

/-- Decimal value of a digit run. -/
def digitsToNat (ds : List Char) : Nat :=
  ds.foldl (fun a c => a * 10 + digitVal c) 0

/-- Parse a JSON integer numeral (optional leading minus). -/
def parseNumber : List Char → Option (Json × List Char)
  | [] => none
  | c :: cs =>
    if c = '-' then
      match takeDigits cs with
      | ([], _) => none
      | (ds, rest) => some (.num (-(digitsToNat ds : Int)), rest)
    else
      match takeDigits (c :: cs) with
      | ([], _) => none
      | (ds, rest) => some (.num (digitsToNat ds), rest)

/-- Parse the body of a JSON string after the opening quote, handling the
single-character escapes; yields the decoded characters and the rest of
the input after the closing quote. -/
def parseStringBody : Nat → List Char → Option (List Char × List Char)
  | 0, _ => none
  | _, [] => none
  | fuel + 1, c :: cs =>
    if c = '"' then some ([], cs)
    else if c = '\\' then
      match cs with
      | [] => none
      | e :: cs2 =>
        let dec : Option Char :=
          if e = '"' then some '"'
          else if e = '\\' then some '\\'
          else if e = '/' then some '/'
          else if e = 'n' then some '\n'
          else if e = 't' then some '\t'
          else if e = 'r' then some '\r'
          else if e = 'b' then some (Char.ofNat 8)
          else if e = 'f' then some (Char.ofNat 12)
          else none
        match dec with
        | none => none
        | some d =>
          match parseStringBody fuel cs2 with
          | some (s, rest) => some (d :: s, rest)
          | none => none
    else
      match parseStringBody fuel cs with
      | some (s, rest) => some (c :: s, rest)
      | none => none

mutual

/-- Recursive-descent parse of one JSON value (fuel-indexed). -/
def parseValue : Nat → List Char → Option (Json × List Char)
  | 0, _ => none
  | fuel + 1, input =>
    match skipWs input with
    | [] => none
    | c :: cs =>
      if c = '"' then
        match parseStringBody (cs.length + 1) cs with
        | some (s, rest) => some (.str s, rest)
        | none => none
      else if c = '{' then
        match skipWs cs with
        | '}' :: rest => some (.obj [], rest)
        | cs2 =>
          match parseMembers fuel cs2 with
          | some (fs, rest) => some (.obj fs, rest)
          | none => none
      else if c = '[' then
        match skipWs cs with
        | ']' :: rest => some (.arr [], rest)
        | cs2 =>
          match parseElems fuel cs2 with
          | some (vs, rest) => some (.arr vs, rest)
          | none => none
      else if startsWithL (c :: cs) (chars "null") then
        some (.null, (c :: cs).drop 4)
      else if startsWithL (c :: cs) (chars "true") then
        some (.bool true, (c :: cs).drop 4)
      else if startsWithL (c :: cs) (chars "false") then
        some (.bool false, (c :: cs).drop 5)
      else parseNumber (c :: cs)

/-- Parse the members of a JSON object, positioned at a key. -/
def parseMembers : Nat → List Char → Option (List (List Char × Json) × List Char)
  | 0, _ => none
  | fuel + 1, input =>
    match skipWs input with
    | '"' :: cs =>
      match parseStringBody (cs.length + 1) cs with
      | some (key, rest1) =>
        match skipWs rest1 with
        | ':' :: rest2 =>
          match parseValue fuel rest2 with
          | some (v, rest3) =>
            match skipWs rest3 with
            | ',' :: rest4 =>
              match parseMembers fuel rest4 with
              | some (fs, rest5) => some ((key, v) :: fs, rest5)
              | none => none
            | '}' :: rest4 => some ([(key, v)], rest4)
            | _ => none
          | none => none
        | _ => none
      | none => none
    | _ => none

/-- Parse the elements of a JSON array, positioned at a value. -/
def parseElems : Nat → List Char → Option (List Json × List Char)
  | 0, _ => none
  | fuel + 1, input =>
    match parseValue fuel input with
    | some (v, rest) =>
      match skipWs rest with
      | ',' :: rest2 =>
        match parseElems fuel rest2 with
        | some (vs, rest3) => some (v :: vs, rest3)
        | none => none
      | ']' :: rest2 => some ([v], rest2)
      | _ => none
    | none => none

end

/-- Model of `JSON.parse`: parse a whole string as a single JSON value,
rejecting trailing garbage (as `JSON.parse` does). -/
def jsParse (s : List Char) : Option Json :=
  match parseValue (2 * s.length + 2) s with
  | some (v, rest) => if skipWs rest = [] then some v else none
  | none => none

/-! ## aiService.js: brace-slice extraction (`analyzeSymptoms`, lines 122-140) -/

/-- JS `String.prototype.indexOf` for a single character: index of its
first occurrence, if any. -/
def firstIdxOf (ch : Char) : List Char → Option Nat
  | [] => none
  | c :: cs => if c = ch then some 0 else (firstIdxOf ch cs).map (· + 1)

/-- JS `String.prototype.lastIndexOf` for a single character. -/
def lastIdxOf (ch : Char) (l : List Char) : Option Nat :=
  (firstIdxOf ch l.reverse).map (fun i => l.length - 1 - i)

/-- JS `String.prototype.slice(start, stop)` (for in-range indices). -/
def sliceL (start stop : Nat) (l : List Char) : List Char :=
  (l.drop start).take (stop - start)

/-- The JSON-extraction chain of `analyzeSymptoms`: try a direct
whole-string `JSON.parse`; on failure locate the first `\x7b` and the last
`\x7d` and, when the latter is strictly after the former, try parsing that
slice.  `none` means both attempts failed (the code then falls back to
`parseFallbackResponse`). -/
def extractJson (response : List Char) : Option Json :=
  match jsParse response with
  | some j => some j
  | none =>
    match firstIdxOf '{' response, lastIdxOf '}' response with
    | some firstBrace, some lastBrace =>
      if firstBrace < lastBrace then
        jsParse (sliceL firstBrace (lastBrace + 1) response)
      else none
    | _, _ => none

/-! ## aiService.js: `ruleBasedAssessment` (lines 295-358) -/

/-- A reported symptom, with the two fields the heuristic assessor
reads (`name` and `severity`). -/
structure Symptom where
  name : List Char
  severity : List Char

/-- `severityScore[(s.severity || 'mild')] || 1` from the source: the
table gives mild 1, moderate 2, severe 3; an empty severity defaults to
`'mild'`, an unknown one falls back to 1. -/
def severityScore (sev : List Char) : Nat :=
  let s := if sev.isEmpty then chars "mild" else sev
  if s = chars "mild" then 1
  else if s = chars "moderate" then 2
  else if s = chars "severe" then 3
  else 1

/-- `totalSeverity`: reduce with `+`, initial 0. -/
def totalSeverity (symptoms : List Symptom) : Nat :=
  symptoms.foldl (fun sum s => sum + severityScore s.severity) 0

/-- `maxSeverity`: reduce with `Math.max`, initial 1. -/
def maxSeverity (symptoms : List Symptom) : Nat :=
  symptoms.foldl (fun m s => Nat.max m (severityScore s.severity)) 1

/-- `names`: the lower-cased symptom names. -/
def lowerNames (symptoms : List Symptom) : List (List Char) :=
  symptoms.map (fun s => lowerChars s.name)

/-- One row of the symptom-to-condition mapping table.  The source calls
the first field `match`, a reserved word in Lean, so it is named `keys`
here. -/
structure SymptomRule where
  keys : List (List Char)
  condition : List Char
  riskBase : Int

/-- The `rules` table of `ruleBasedAssessment`. -/
def rules : List SymptomRule :=
  [ ⟨[chars "fever", chars "cough"], chars "Viral respiratory infection", 30⟩,
    ⟨[chars "headache", chars "nausea"], chars "Migraine", 25⟩,
    ⟨[chars "chest pain"], chars "Cardiac or musculoskeletal cause", 50⟩,
    ⟨[chars "fatigue"], chars "Fatigue (multifactorial)", 20⟩,
    ⟨[chars "abdominal pain"], chars "Gastrointestinal upset", 30⟩,
    ⟨[chars "shortness of breath"], chars "Respiratory issue", 40⟩ ]

/-- The default row used when no rule matches. -/
def defaultRule : SymptomRule :=
  ⟨[], chars "Non-specific presentation", 15⟩

/-- `matched`: the rules one of whose keys equals (array `includes`) a
reported lower-cased symptom name, in table order. -/
def matchedRules (symptoms : List Symptom) : List SymptomRule :=
  rules.filter (fun r =>
    r.keys.any (fun m => (lowerNames symptoms).any (fun n => decide (n = m))))

/-- `baseConditions`: the matched rules, or the default row when none
matched. -/
def baseRules (symptoms : List Symptom) : List SymptomRule :=
  if (matchedRules symptoms).isEmpty then [defaultRule] else matchedRules symptoms

/-- One entry of `possibleConditions`. -/
structure PossibleCondition where
  condition : List Char
  probability : Int
  confidence : Int
  description : List Char
  symptoms : List (List Char)
  riskLevel : List Char

/-- The body of the `.map((r, idx) => ...)` over the (at most three)
base rules. -/
def mkCondition (names : List (List Char)) (tot maxv : Nat) (idx : Nat)
    (r : SymptomRule) : PossibleCondition :=
  let probability : Int := min 90 (r.riskBase + (maxv : Int) * 10 + (idx : Int) * 5)
  let confidence : Int := min 90 (40 + (tot : Int) * 8 - (idx : Int) * 5)
  let riskLevel :=
    if 70 ≤ probability then chars "high"
    else if 45 ≤ probability then chars "medium"
    else chars "low"
  ⟨r.condition, probability, confidence,
   chars "Estimated from reported symptoms using heuristic rules.",
   names, riskLevel⟩

/-- Index-aware map producing the condition entries (the `(r, idx)`
callback made explicit). -/
def buildConditions (names : List (List Char)) (tot maxv idx : Nat) :
    List SymptomRule → List PossibleCondition
  | [] => []
  | r :: rs => mkCondition names tot maxv idx r :: buildConditions names tot maxv (idx + 1) rs

/-- One entry of `recommendations`. -/
structure Recommendation where
  type : List Char
  title : List Char
  description : List Char
  priority : List Char
  timeframe : List Char

/-- `followUp` object. -/
structure FollowUp where
  timeframe : List Char
  actions : List (List Char)

/-- The complete assessment object the heuristic returns. -/
structure Assessment where
  possibleConditions : List PossibleCondition
  recommendations : List Recommendation
  generalAdvice : List Char
  whenToSeekHelp : List Char
  followUp : FollowUp

/-- `ruleBasedAssessment(symptoms, userContext)` — the `userContext`
parameter is unused in the source body and therefore omitted. -/
def ruleBasedAssessment (symptoms : List Symptom) : Assessment :=
  let names := lowerNames symptoms
  let tot := totalSeverity symptoms
  let maxv := maxSeverity symptoms
  let possibleConditions := buildConditions names tot maxv 0 ((baseRules symptoms).take 3)
  let emergencyRecs : List Recommendation :=
    if 3 ≤ maxv || names.any (fun n => decide (n = chars "chest pain"))
        || names.any (fun n => decide (n = chars "shortness of breath")) then
      [⟨chars "emergency",
        chars "Seek urgent medical care if symptoms are severe",
        chars "If chest pain, severe shortness of breath, fainting, or confusion occur, seek immediate medical attention.",
        chars "urgent", chars "Immediately"⟩]
    else []
  let recommendations := emergencyRecs ++
    [⟨chars "consultation",
      chars "Consult a healthcare professional",
      chars "Discuss these symptoms with your healthcare provider for appropriate evaluation.",
      if 2 ≤ maxv then chars "high" else chars "medium",
      if 2 ≤ maxv then chars "Within 1-3 days" else chars "Within 1-2 weeks"⟩,
     ⟨chars "lifestyle",
      chars "Supportive care",
      chars "Hydration, balanced diet, rest, and monitoring of symptom changes.",
      chars "medium", chars "Ongoing"⟩]
  { possibleConditions := possibleConditions
    recommendations := recommendations
    generalAdvice := chars "This is educational guidance only and not a diagnosis. Monitor symptom changes and seek professional care as appropriate."
    whenToSeekHelp := chars "If symptoms worsen, new severe symptoms develop, or you are concerned, seek medical attention promptly."
    followUp := ⟨chars "1-2 weeks",
      [chars "Monitor symptoms daily", chars "Track temperature and severity",
       chars "Consult provider if persistent"]⟩ }

/-! ## Conversion of the structured results to the dynamic (JSON) values
the JS functions actually return -/

/-- The JS object literal for one possible condition. -/
def conditionToJson (e : PossibleCondition) : Json :=
  .obj [ (chars "condition", .str e.condition),
         (chars "probability", .num e.probability),
         (chars "confidence", .num e.confidence),
         (chars "description", .str e.description),
         (chars "symptoms", .arr (e.symptoms.map .str)),
         (chars "riskLevel", .str e.riskLevel) ]

/-- The JS object literal for one recommendation. -/
def recommendationToJson (r : Recommendation) : Json :=
  .obj [ (chars "type", .str r.type),
         (chars "title", .str r.title),
         (chars "description", .str r.description),
         (chars "priority", .str r.priority),
         (chars "timeframe", .str r.timeframe) ]

/-- The JS object literal for a whole assessment. -/
def assessmentToJson (a : Assessment) : Json :=
  .obj [ (chars "possibleConditions", .arr (a.possibleConditions.map conditionToJson)),
         (chars "recommendations", .arr (a.recommendations.map recommendationToJson)),
         (chars "generalAdvice", .str a.generalAdvice),
         (chars "whenToSeekHelp", .str a.whenToSeekHelp),
         (chars "followUp", .obj [ (chars "timeframe", .str a.followUp.timeframe),
                                   (chars "actions", .arr (a.followUp.actions.map .str)) ]) ]

/-- `parseFallbackResponse(response)` (aiService.js lines 268-292): the
fixed object returned when no JSON could be extracted; `response || '...'`
becomes the general advice. -/
def parseFallbackResponse (response : List Char) : Json :=
  .obj [ (chars "possibleConditions", .arr
           [ .obj [ (chars "condition", .str (chars "General symptoms")),
                    (chars "probability", .num 50),
                    (chars "confidence", .num 60),
                    (chars "description", .str (chars "Based on the symptoms provided")),
                    (chars "symptoms", .arr [.str (chars "Various symptoms")]),
                    (chars "riskLevel", .str (chars "medium")) ] ]),
         (chars "recommendations", .arr
           [ .obj [ (chars "type", .str (chars "consultation")),
                    (chars "title", .str (chars "Consult Healthcare Provider")),
                    (chars "description", .str (chars "Schedule an appointment with your doctor to discuss these symptoms")),
                    (chars "priority", .str (chars "medium")),
                    (chars "timeframe", .str (chars "Within a week")) ] ]),
         (chars "generalAdvice", .str
           (if response.isEmpty then
              chars "Please consult with a healthcare professional for proper evaluation."
            else response)),
         (chars "whenToSeekHelp", .str (chars "If symptoms persist or worsen, seek medical attention promptly.")),
         (chars "followUp", .obj
           [ (chars "timeframe", .str (chars "1-2 weeks")),
             (chars "actions", .arr [.str (chars "Monitor symptoms"),
                                     .str (chars "Schedule doctor appointment")]) ]) ]

/-! ## aiService.js: `analyzeSymptoms` (lines 58-146) -/

/-- Outcome of the surrounding environment and Groq model call:
no `GROQ_API_KEY` configured; a completion whose (optional) message
content is returned; or a thrown error. -/
inductive ModelOutcome where
  | noKey : ModelOutcome
  | ok : Option (List Char) → ModelOutcome
  | err : ModelOutcome

/-- `analyzeSymptoms(symptoms, userContext)`: with no API key, or when
the model call throws, fall back to the heuristic; otherwise take
`completion.choices?.[0]?.message?.content || ''` and run the JSON
extraction chain, falling back to `parseFallbackResponse`.  The returned
JS value is dynamic, so the result type is `Json`. -/
def analyzeSymptoms (outcome : ModelOutcome) (symptoms : List Symptom) : Json :=
  match outcome with
  | .noKey => assessmentToJson (ruleBasedAssessment symptoms)
  | .err => assessmentToJson (ruleBasedAssessment symptoms)
  | .ok content =>
    let response := content.getD []
    match extractJson response with
    | some j => j
    | none => parseFallbackResponse response

/-! ## aiService.js: `chatResponse` (lines 148-193) -/

/-- Outcome of the Groq call inside `chatResponse`. -/
inductive ChatModelOutcome where
  | ok : Option (List Char) → ChatModelOutcome
  | err : ChatModelOutcome

/-- The fixed apology returned from the catch block of `chatResponse`. -/
def chatApology : List Char :=
  chars "I apologize, but I\x27m having trouble processing your request right now. Please try again in a moment, or contact our support team if the issue persists."

/-- `chatResponse(message, chatHistory, userContext)`: on success return
`completion.choices?.[0]?.message?.content || ''`; on a thrown error
return the fixed apology.  (The message, history and context only shape
the prompt, which does not affect this result.) -/
def chatResponse (outcome : ChatModelOutcome) : List Char :=
  match outcome with
  | .ok content => content.getD []
  | .err => chatApology

/-! ## aiService.js: `validateResponse` (lines 360-378) -/

/-- The fixed denylist (`dangerousKeywords`). -/
def dangerousKeywords : List (List Char) :=
  [ chars "self-diagnose", chars "self-treat", chars "ignore symptoms",
    chars "delay treatment", chars "alternative medicine only",
    chars "avoid doctors", chars "natural cure" ]

/-- Result of `validateResponse`. -/
structure ValidationResult where
  isValid : Bool
  sanitizedResponse : List Char

/-- The fixed safe-redirect sentence. -/
def safeRedirect : List Char :=
  chars "I recommend consulting with a healthcare professional for proper evaluation of your symptoms."

/-- `validateResponse(response)` for string inputs: reject when the
lower-cased text contains any denylist phrase. -/
def validateResponse (response : List Char) : ValidationResult :=
  let hasDangerousContent :=
    dangerousKeywords.any (fun keyword => containsSub (lowerChars response) keyword)
  if hasDangerousContent then ⟨false, safeRedirect⟩
  else ⟨true, response⟩

/-! ## models/Chat.js: `addMessage` / `updateContext` (lines 170-207) -/

/-- One chat message (the fields `updateContext` reads). -/
structure ChatMsg where
  role : List Char
  content : List Char

/-- The part of `ChatSession.context` this scan touches. -/
structure ChatContext where
  emotionalState : List Char
  urgencyLevel : List Char

/-- A chat session document (messages plus context). -/
structure ChatSession where
  messages : List ChatMsg
  context : ChatContext

/-- JS `arr.slice(-n)`: the last `n` elements. -/
def takeLast (n : Nat) (l : List α) : List α := l.drop (l.length - n)

/-- The `urgentKeywords` list of `updateContext`. -/
def urgentKeywords : List (List Char) :=
  [ chars "emergency", chars "urgent", chars "immediate", chars "severe",
    chars "critical", chars "pain", chars "help" ]

/-- `updateContext()`: look at the last user message among the last five
messages; if its lower-cased content contains any urgent keyword, set
`urgencyLevel` to `'high'` and `emotionalState` to `'urgent'`; otherwise
leave everything unchanged. -/
def updateContext (c : ChatSession) : ChatSession :=
  if c.messages.isEmpty then c
  else
    let recentMessages := takeLast 5 c.messages
    let userMessages := recentMessages.filter (fun m => decide (m.role = chars "user"))
    match userMessages.getLast? with
    | none => c
    | some lastUserMessage =>
      if urgentKeywords.any (fun k => containsSub (lowerChars lastUserMessage.content) k) then
        { c with context := ⟨chars "urgent", chars "high"⟩ }
      else c

/-- `addMessage(role, content)`: push the message, then run
`updateContext` (the metadata and the save are irrelevant here). -/
def addMessage (c : ChatSession) (role content : List Char) : ChatSession :=
  updateContext { c with messages := c.messages ++ [⟨role, content⟩] }

/-! ## routes chat handler: maker-question short-circuit
(`router.post('/:sessionId/message')`) -/

/-- The fixed attribution reply. -/
def makerAnswer : List Char :=
  chars "This application was made by Tesfahun Kere (programmer)."

/-- The `asksWhoMade` test of the handler, over the lower-cased message
text. -/
def asksWhoMade (content : List Char) : Bool :=
  let text := lowerChars content
  containsSub text (chars "who made") ||
  containsSub text (chars "who built") ||
  containsSub text (chars "who created") ||
  (containsSub text (chars "developer") &&
    (containsSub text (chars "site") || containsSub text (chars "app") ||
     containsSub text (chars "application") || containsSub text (chars "website")))

/-- Observable effects of one run of the message handler after the user
message was stored: the response text, whether `aiService.chatResponse`
(the Model Provider) was invoked, and whether `updateChatInsights` ran. -/
structure MessageOutcome where
  response : List Char
  modelInvoked : Bool
  insightsUpdated : Bool

/-- The decision core of the message handler: a maker question gets the
fixed attribution answer with no model call; anything else goes to the
model, whose reply is passed through `validateResponse`; the
insight-update step runs on both paths. -/
def handleChatMessage (content : List Char) (aiReply : List Char) : MessageOutcome :=
  if asksWhoMade content then
    ⟨makerAnswer, false, true⟩
  else
    let validation := validateResponse aiReply
    ⟨if validation.isValid then aiReply else validation.sanitizedResponse, true, true⟩

/-! ## middleware: `userActionLimiter` -/

/-- `validActions`: the recorded timestamps still inside the rolling
window at time `now` (JS keeps `time` with `now - time < windowMs`). -/
def validActions (windowMs : Nat) (actions : List Nat) (now : Nat) : List Nat :=
  actions.filter (fun time => decide (now - time < windowMs))

/-- One call of the limiter for one user's timestamp list: drop the aged
timestamps, then either reject (429; nothing appended) or append `now`
and accept.  The first component is `true` iff the request is admitted. -/
def userActionStep (maxActions windowMs : Nat) (actions : List Nat) (now : Nat) :
    Bool × List Nat :=
  let valid := validActions windowMs actions now
  if maxActions ≤ valid.length then (false, valid)
  else (true, valid ++ [now])

/-- Run the limiter over a sequence of call times for one user, returning
the accept/reject verdicts and the final timestamp list. -/
def runLimiter (maxActions windowMs : Nat) (actions : List Nat) :
    List Nat → List Bool × List Nat
  | [] => ([], actions)
  | now :: rest =>
    let step := userActionStep maxActions windowMs actions now
    let r := runLimiter maxActions windowMs step.2 rest
    (step.1 :: r.1, r.2)

/-- The request-level middleware `userActionLimiter(maxActions, windowMs)`
keyed by user id: with no authenticated user it calls `next()` at once;
otherwise it runs the per-user step on that user's entry of the map. -/
def userActionLimiter (maxActions windowMs : Nat) (reqUser : Option (List Char))
    (store : List Char → List Nat) (now : Nat) :
    Bool × (List Char → List Nat) :=
  match reqUser with
  | none => (true, store)
  | some userId =>
    let step := userActionStep maxActions windowMs (store userId) now
    (step.1, fun u => if u = userId then step.2 else store u)

/-! ## Spec-side predicates (from the claims, not from the source) -/

/-- First value bound to `key` in a JSON object's field list. -/
def lookupField (key : List Char) : List (List Char × Json) → Option Json
  | [] => none
  | (k, v) :: fs => if k = key then some v else lookupField key fs

/-- The claim's range condition on one possible-condition entry: its
`probability` and `confidence` are numbers in `[0, 100]`. -/
def condInRange (j : Json) : Bool :=
  match j with
  | .obj fs =>
    (match lookupField (chars "probability") fs with
     | some (.num p) => decide (0 ≤ p) && decide (p ≤ 100)
     | _ => false) &&
    (match lookupField (chars "confidence") fs with
     | some (.num c) => decide (0 ≤ c) && decide (c ≤ 100)
     | _ => false)
  | _ => false

/-- The claim's shape condition on an assessment value: it is an object
whose `possibleConditions` field is a non-empty array, every entry of
which passes `condInRange`. -/
def hasValidConditions (j : Json) : Bool :=
  match j with
  | .obj fs =>
    match lookupField (chars "possibleConditions") fs with
    | some (.arr (x :: xs)) => (x :: xs).all condInRange
    | _ => false
  | _ => false

/-- The five emergency keywords named by the claim about
`updateContext` (as opposed to the code's combined seven-keyword list). -/
def claimEmergencyKeywords : List (List Char) :=
  [ chars "emergency", chars "urgent", chars "immediate", chars "severe",
    chars "critical" ]

/-! ## Helper lemmas -/

theorem startsWithL_of_append {cs p q : List Char}
    (h : startsWithL cs (p ++ q) = true) : startsWithL cs p = true := by
  induction p generalizing cs with
  | nil => cases cs <;> rfl
  | cons a p ih =>
    cases cs with
    | nil => simp [startsWithL] at h
    | cons c cs =>
      simp only [List.cons_append, startsWithL, Bool.and_eq_true] at h ⊢
      exact ⟨h.1, ih h.2⟩

theorem containsSub_of_append {hay p q : List Char}
    (h : containsSub hay (p ++ q) = true) : containsSub hay p = true := by
  induction hay with
  | nil =>
    simp only [containsSub, List.isEmpty_eq_true, List.append_eq_nil] at h ⊢
    exact h.1
  | cons c t ih =>
    simp only [containsSub, Bool.or_eq_true] at h ⊢
    rcases h with h | h
    · exact Or.inl (startsWithL_of_append h)
    · exact Or.inr (ih h)

/-! ## C10 -/

/-- C10: for every request with no authenticated user attached, the rate
limiter admits the request unconditionally and leaves the per-user
timestamp store completely unchanged — unauthenticated calls are never
throttled and record nothing. -/
theorem c10_unauthenticated_never_throttled
    (maxActions windowMs : Nat) (store : List Char → List Nat) (now : Nat) :
    userActionLimiter maxActions windowMs none store now = (true, store) := rfl

/-! ## C2 -/

/-- C2: each limiter call first keeps exactly the recorded timestamps
still inside the rolling window (`now - t < windowMs`), rejects with
nothing appended when at least `maxActions` remain, and otherwise appends
`now` and accepts; consequently with `maxActions = 5, windowMs = 60000`
five calls at time 0 are admitted, a sixth at 59999 is rejected, and a
call at 60000 — once the oldest timestamp has aged out — is admitted
again. -/
theorem c2_rate_limiter_window (maxActions windowMs : Nat)
    (actions : List Nat) (now : Nat) :
    (∀ t, t ∈ validActions windowMs actions now ↔ t ∈ actions ∧ now - t < windowMs) ∧
    ((userActionStep maxActions windowMs actions now).1 = false ↔
      maxActions ≤ (validActions windowMs actions now).length) ∧
    ((userActionStep maxActions windowMs actions now).1 = false →
      (userActionStep maxActions windowMs actions now).2 =
        validActions windowMs actions now) ∧
    ((userActionStep maxActions windowMs actions now).1 = true →
      (userActionStep maxActions windowMs actions now).2 =
        validActions windowMs actions now ++ [now] ∧
      (validActions windowMs actions now).length < maxActions) ∧
    (runLimiter 5 60000 [] [0, 0, 0, 0, 0, 59999, 60000]).1 =
      [true, true, true, true, true, false, true] := by
  refine ⟨?_, ?_, ?_, ?_, by decide⟩
  · intro t
    simp [validActions, List.mem_filter]
  · by_cases h : maxActions ≤ (validActions windowMs actions now).length <;>
      simp [userActionStep, h]
  · intro h
    by_cases hc : maxActions ≤ (validActions windowMs actions now).length
    · simp [userActionStep, hc]
    · simp [userActionStep, hc] at h
  · intro h
    by_cases hc : maxActions ≤ (validActions windowMs actions now).length
    · simp [userActionStep, hc] at h
    · exact ⟨by simp [userActionStep, hc], by omega⟩

/-- Witness for C2 at a concrete input: with five in-window timestamps the
sixth call at 59999 is rejected and nothing is appended. -/
theorem c2_rate_limiter_window_witness :
    (userActionStep 5 60000 [0, 0, 0, 0, 0] 59999).1 = false ∧
    (userActionStep 5 60000 [0, 0, 0, 0, 0] 59999).2 =
      validActions 60000 [0, 0, 0, 0, 0] 59999 := by
  have h := c2_rate_limiter_window 5 60000 [0, 0, 0, 0, 0] 59999
  have hf : (userActionStep 5 60000 [0, 0, 0, 0, 0] 59999).1 = false :=
    h.2.1.mpr (by decide)
  exact ⟨hf, h.2.2.1 hf⟩

/-! ## C4 -/

/-- C4: `validateResponse` returns `isValid = false` together with the
fixed safe-redirect sentence exactly when the lower-cased input contains
one of the denylist phrases; otherwise it returns the input unchanged
with `isValid = true`; in particular any text containing
"natural cure only" is rejected (it contains the denylist phrase
"natural cure"). -/
theorem c4_validate_response (s : List Char) :
    ((validateResponse s).isValid = false ↔
      dangerousKeywords.any (fun k => containsSub (lowerChars s) k) = true) ∧
    ((validateResponse s).isValid = false →
      (validateResponse s).sanitizedResponse = safeRedirect) ∧
    ((validateResponse s).isValid = true →
      (validateResponse s).sanitizedResponse = s) ∧
    (containsSub (lowerChars s) (chars "natural cure only") = true →
      (validateResponse s).isValid = false) := by
  cases hb : dangerousKeywords.any (fun k => containsSub (lowerChars s) k) with
  | false =>
    have he : validateResponse s = ⟨true, s⟩ := by
      simp [validateResponse, hb]
    refine ⟨?_, ?_, ?_, ?_⟩
    · rw [he]; simp
    · rw [he]; intro h; simp at h
    · intro _; rw [he]
    · intro h
      have hsplit : chars "natural cure only" = chars "natural cure" ++ chars " only" := rfl
      rw [hsplit] at h
      have hnc : containsSub (lowerChars s) (chars "natural cure") = true :=
        containsSub_of_append h
      have hany : dangerousKeywords.any (fun k => containsSub (lowerChars s) k) = true :=
        List.any_eq_true.mpr ⟨chars "natural cure", by decide, hnc⟩
      rw [hb] at hany
      cases hany
  | true =>
    have he : validateResponse s = ⟨false, safeRedirect⟩ := by
      simp [validateResponse, hb]
    exact ⟨by rw [he]; simp [hb], fun _ => by rw [he], by rw [he]; intro h; simp at h,
      fun _ => by rw [he]⟩

/-- Witness for C4 at a concrete input: a sentence containing
"natural cure only" is rejected and replaced by the safe-redirect
sentence. -/
theorem c4_validate_response_witness :
    (validateResponse (chars "Try a Natural Cure Only, it works")).isValid = false ∧
    (validateResponse (chars "Try a Natural Cure Only, it works")).sanitizedResponse =
      safeRedirect := by
  have h := c4_validate_response (chars "Try a Natural Cure Only, it works")
  have hf := h.2.2.2 (by decide)
  exact ⟨hf, h.2.1 hf⟩

/-! ## C6 -/

/-- C6 counterexample: a successful model call whose message content is
the empty string makes `chatResponse` return the empty string, so the
chat operation does not always return non-empty text. -/
theorem c6_chat_nonempty_counterexample :
    chatResponse (ChatModelOutcome.ok (some [])) = [] := rfl

/-- C6 amended: `chatResponse` never throws (it is total); on any model
failure it returns the fixed, non-empty apologetic retry sentence, and on
success it returns the model's reply verbatim — which is empty exactly
when the model's content was empty or missing. -/
theorem c6_chat_response_amended :
    chatResponse ChatModelOutcome.err = chatApology ∧
    chatApology ≠ [] ∧
    (∀ s : List Char, chatResponse (ChatModelOutcome.ok (some s)) = s) ∧
    chatResponse (ChatModelOutcome.ok none) = [] :=
  ⟨rfl, by decide, fun _ => rfl, rfl⟩

/-! ## C7 / C8: the urgency scan of `updateContext` -/

theorem takeLast_concat {α : Type} (l : List α) (m : α) :
    ∃ l', takeLast 5 (l ++ [m]) = l' ++ [m] := by
  refine ⟨l.drop (l.length + 1 - 5), ?_⟩
  unfold takeLast
  have hlen : (l ++ [m]).length = l.length + 1 := by simp
  rw [hlen, List.drop_append_of_le_length (by omega)]

theorem updateContext_concat_user (c : ChatSession) (content : List Char) :
    updateContext { c with messages := c.messages ++ [⟨chars "user", content⟩] } =
      (if urgentKeywords.any (fun k => containsSub (lowerChars content) k) then
        { messages := c.messages ++ [⟨chars "user", content⟩],
          context := ⟨chars "urgent", chars "high"⟩ }
      else { c with messages := c.messages ++ [⟨chars "user", content⟩] }) := by
  have hne : (c.messages ++ [(⟨chars "user", content⟩ : ChatMsg)]).isEmpty = false := by
    cases c.messages <;> rfl
  obtain ⟨l', hl'⟩ := takeLast_concat c.messages (⟨chars "user", content⟩ : ChatMsg)
  have hlast : ((takeLast 5 (c.messages ++ [⟨chars "user", content⟩])).filter
      (fun m => decide (m.role = chars "user"))).getLast? =
        some ⟨chars "user", content⟩ := by
    rw [hl', List.filter_append]
    simp only [List.filter_cons, List.filter_nil]
    rw [if_pos (by decide)]
    exact List.getLast?_concat _
  unfold updateContext
  simp only [hne, Bool.false_eq_true, if_false, hlast]

/-- C7 counterexample session: an empty active session with calm/low
context. -/
def c7session : ChatSession := ⟨[], ⟨chars "calm", chars "low"⟩⟩

/-- The session after adding the user message "I have pain in my knee". -/
def c7result : ChatSession :=
  addMessage c7session (chars "user") (chars "I have pain in my knee")

/-- C7 counterexample: the user message "I have pain in my knee" contains
the pain keyword and none of the five emergency keywords, yet
`updateContext` sets `urgencyLevel` to `'high'` (and `emotionalState` to
`'urgent'`), not to `'medium'` as the claim states: the code has a single
combined keyword list and no medium tier. -/
theorem c7_urgency_scan_counterexample :
    c7result.context.urgencyLevel = chars "high" ∧
    c7result.context.urgencyLevel ≠ chars "medium" ∧
    c7result.context.emotionalState = chars "urgent" ∧
    containsSub (lowerChars (chars "I have pain in my knee")) (chars "pain") = true ∧
    claimEmergencyKeywords.all
      (fun k => !containsSub (lowerChars (chars "I have pain in my knee")) k) = true := by
  decide

/-- C7 amended: after `addMessage` of a user message, `updateContext`
scans the most recent user message within the last five messages (here
the new message itself) against the single combined keyword list
`["emergency","urgent","immediate","severe","critical","pain","help"]`;
any match sets `urgencyLevel = 'high'` and `emotionalState = 'urgent'`
(there is no medium tier), and no match leaves the context unchanged. -/
theorem c7_urgency_scan_amended (c : ChatSession) (content : List Char) :
    (addMessage c (chars "user") content).messages =
      c.messages ++ [⟨chars "user", content⟩] ∧
    (urgentKeywords.any (fun k => containsSub (lowerChars content) k) = true →
      (addMessage c (chars "user") content).context =
        ⟨chars "urgent", chars "high"⟩) ∧
    (urgentKeywords.any (fun k => containsSub (lowerChars content) k) = false →
      (addMessage c (chars "user") content).context = c.context) := by
  have h : addMessage c (chars "user") content =
      updateContext { c with messages := c.messages ++ [⟨chars "user", content⟩] } := rfl
  rw [h, updateContext_concat_user]
  cases hb : urgentKeywords.any (fun k => containsSub (lowerChars content) k) with
  | false =>
    rw [if_neg (by simp [hb])]
    refine ⟨rfl, ?_, fun _ => rfl⟩
    intro hx
    exact absurd hx (by decide)
  | true =>
    rw [if_pos (by simp [hb])]
    refine ⟨rfl, fun _ => rfl, ?_⟩
    intro hx
    exact absurd hx (by decide)

/-- Witness for C7 (amended) at a concrete input: a message containing
"help" (one of the two extra keywords) forces high/urgent. -/
theorem c7_urgency_scan_amended_witness :
    (addMessage c7session (chars "user") (chars "please help me")).context =
      ⟨chars "urgent", chars "high"⟩ :=
  (c7_urgency_scan_amended c7session (chars "please help me")).2.1 (by decide)

theorem updateContext_context_cases (c : ChatSession) :
    (updateContext c).context = c.context ∨
    (updateContext c).context = ⟨chars "urgent", chars "high"⟩ := by
  cases he : c.messages.isEmpty with
  | true =>
    unfold updateContext
    rw [if_pos he]
    exact Or.inl rfl
  | false =>
    unfold updateContext
    rw [if_neg (by simp [he])]
    cases hg : ((takeLast 5 c.messages).filter
        (fun m => decide (m.role = chars "user"))).getLast? with
    | none =>
      simp only [hg]
      exact Or.inl trivial
    | some lastUserMessage =>
      simp only [hg]
      split
      · exact Or.inr rfl
      · exact Or.inl rfl

theorem addMessage_preserves_high (c : ChatSession) (role content : List Char)
    (h : c.context.urgencyLevel = chars "high") :
    (addMessage c role content).context.urgencyLevel = chars "high" := by
  unfold addMessage
  rcases updateContext_context_cases
      { c with messages := c.messages ++ [⟨role, content⟩] } with hc | hc <;> rw [hc]
  exact h

/-- C8: within a session, urgency raised to `'high'` by the keyword scan
is never automatically downgraded: after any further sequence of
`addMessage` calls (with or without keyword matches) the urgency level is
still `'high'`. -/
theorem c8_urgency_monotone (c : ChatSession)
    (h : c.context.urgencyLevel = chars "high")
    (ms : List (List Char × List Char)) :
    ((ms.foldl (fun s rc => addMessage s rc.1 rc.2) c)).context.urgencyLevel =
      chars "high" := by
  induction ms generalizing c with
  | nil => exact h
  | cons p ps ih =>
    exact ih (addMessage c p.1 p.2) (addMessage_preserves_high c p.1 p.2 h)

/-- The session after the user message "I have severe chest pain": the
scan raises urgency to high. -/
def c8start : ChatSession :=
  addMessage ⟨[], ⟨chars "calm", chars "low"⟩⟩ (chars "user")
    (chars "I have severe chest pain")

/-- Witness for C8 at a concrete input: urgency raised by
"I have severe chest pain" stays high across two later neutral
messages. -/
theorem c8_urgency_monotone_witness :
    (([(chars "user", chars "thanks doctor"),
       (chars "assistant", chars "you are welcome")]).foldl
      (fun s rc => addMessage s rc.1 rc.2) c8start).context.urgencyLevel =
      chars "high" :=
  c8_urgency_monotone c8start (by decide) _

/-! ## C9 -/

/-- C9: a chat message matching the maker-question phrase set gets the
fixed attribution string as the response, the Model Provider is not
invoked, and the insight-update step still runs. -/
theorem c9_maker_question (content aiReply : List Char)
    (h : containsSub (lowerChars content) (chars "who made") = true ∨
         containsSub (lowerChars content) (chars "who built") = true ∨
         containsSub (lowerChars content) (chars "who created") = true ∨
         (containsSub (lowerChars content) (chars "developer") = true ∧
           (containsSub (lowerChars content) (chars "site") = true ∨
            containsSub (lowerChars content) (chars "app") = true ∨
            containsSub (lowerChars content) (chars "application") = true ∨
            containsSub (lowerChars content) (chars "website") = true))) :
    handleChatMessage content aiReply = ⟨makerAnswer, false, true⟩ := by
  have ha : asksWhoMade content = true := by
    simp only [asksWhoMade, Bool.or_eq_true, Bool.and_eq_true]
    tauto
  unfold handleChatMessage
  rw [if_pos ha]

/-- Witness for C9 at a concrete input: "Who made this app?" yields the
attribution answer without a model call. -/
theorem c9_maker_question_witness :
    handleChatMessage (chars "Who made this app?") (chars "hello") =
      ⟨makerAnswer, false, true⟩ :=
  c9_maker_question (chars "Who made this app?") (chars "hello") (Or.inl (by decide))

/-! ## C5: the JSON extraction chain -/

theorem firstIdxOf_append_cons (ch : Char) (pre rest : List Char)
    (h : ch ∉ pre) : firstIdxOf ch (pre ++ ch :: rest) = some pre.length := by
  induction pre with
  | nil => simp [firstIdxOf]
  | cons a pre ih =>
    have ha : ¬(a = ch) := by
      intro he
      exact h (he ▸ List.mem_cons_self a pre)
    have hi := ih (fun hm => h (List.mem_cons_of_mem a hm))
    simp only [List.cons_append, firstIdxOf, List.append_eq]
    rw [if_neg ha, hi]
    rfl

/-- C5: `analyzeSymptoms` first tries a direct whole-string JSON parse
and returns the parsed value; when the direct parse fails, a response of
the form prose + JSON-object + prose (no `\x7b` in the leading prose, no
`\x7d` in the trailing prose) is parsed from the slice between the first
`\x7b` and the last `\x7d`, recovering exactly the wrapped object. -/
theorem c5_brace_slice_roundtrip :
    (∀ (s : List Char) (v : Json) (symptoms : List Symptom),
      jsParse s = some v →
      analyzeSymptoms (ModelOutcome.ok (some s)) symptoms = v) ∧
    (∀ (pre mid post : List Char) (v : Json) (symptoms : List Symptom),
      '{' ∉ pre → '}' ∉ post →
      jsParse (pre ++ ('{' :: (mid ++ [ '}' ])) ++ post) = none →
      jsParse ('{' :: (mid ++ [ '}' ])) = some v →
      analyzeSymptoms (ModelOutcome.ok (some (pre ++ ('{' :: (mid ++ [ '}' ])) ++ post)))
        symptoms = v) := by
  constructor
  · intro s v symptoms h
    simp only [analyzeSymptoms, Option.getD_some]
    unfold extractJson
    rw [h]
  · intro pre mid post v symptoms hpre hpost hfull hbody
    have hfi : firstIdxOf '{' (pre ++ ('{' :: (mid ++ [ '}' ])) ++ post) =
        some pre.length := by
      have h0 := firstIdxOf_append_cons '{' pre ((mid ++ [ '}' ]) ++ post) hpre
      simpa using h0
    have hsrev : (pre ++ ('{' :: (mid ++ [ '}' ])) ++ post).reverse =
        post.reverse ++ '}' :: (mid.reverse ++ '{' :: pre.reverse) := by
      simp
    have hpostrev : '}' ∉ post.reverse :=
      fun hm => hpost (List.mem_reverse.mp hm)
    have hfirstrev : firstIdxOf '}' (pre ++ ('{' :: (mid ++ [ '}' ])) ++ post).reverse =
        some post.length := by
      rw [hsrev]
      have h0 := firstIdxOf_append_cons '}' post.reverse
        (mid.reverse ++ '{' :: pre.reverse) hpostrev
      simpa using h0
    have hslen : (pre ++ ('{' :: (mid ++ [ '}' ])) ++ post).length =
        pre.length + (mid.length + 2) + post.length := by
      simp
      omega
    have hla : lastIdxOf '}' (pre ++ ('{' :: (mid ++ [ '}' ])) ++ post) =
        some (pre.length + mid.length + 1) := by
      unfold lastIdxOf
      rw [hfirstrev, hslen]
      change some (pre.length + (mid.length + 2) + post.length - 1 - post.length) =
        some (pre.length + mid.length + 1)
      congr 1
      omega
    have hdrop : (pre ++ ('{' :: (mid ++ [ '}' ])) ++ post).drop pre.length =
        ('{' :: (mid ++ [ '}' ])) ++ post := by
      rw [List.append_assoc]
      exact List.drop_left pre (('{' :: (mid ++ [ '}' ])) ++ post)
    have hBlen : ('{' :: (mid ++ [ '}' ])).length = mid.length + 2 := by
      simp
    have hslice : sliceL pre.length (pre.length + mid.length + 1 + 1)
        (pre ++ ('{' :: (mid ++ [ '}' ])) ++ post) = '{' :: (mid ++ [ '}' ]) := by
      unfold sliceL
      rw [hdrop]
      have hstop : pre.length + mid.length + 1 + 1 - pre.length = mid.length + 2 := by
        omega
      rw [hstop, ← hBlen]
      exact List.take_left _ _
    have hext : extractJson (pre ++ ('{' :: (mid ++ [ '}' ])) ++ post) = some v := by
      unfold extractJson
      rw [hfull, hfi, hla]
      change (if pre.length < pre.length + mid.length + 1 then
          jsParse (sliceL pre.length (pre.length + mid.length + 1 + 1)
            (pre ++ ('{' :: (mid ++ [ '}' ])) ++ post))
        else none) = some v
      rw [if_pos (by omega), hslice]
      exact hbody
    simp only [analyzeSymptoms, Option.getD_some]
    rw [hext]

/-- Witness for C5 at a concrete input: the model reply
"Sure! \x7b"a":1\x7d Hope that helps." fails the direct parse and is
recovered by brace-slicing to exactly the wrapped object. -/
theorem c5_brace_slice_roundtrip_witness :
    analyzeSymptoms (ModelOutcome.ok (some
      (chars "Sure! " ++ ('{' :: (chars "\"a\":1" ++ [ '}' ])) ++ chars " Hope that helps.")))
      [] = Json.obj [(chars "a", Json.num 1)] :=
  c5_brace_slice_roundtrip.2 (chars "Sure! ") (chars "\"a\":1") (chars " Hope that helps.")
    (Json.obj [(chars "a", Json.num 1)]) []
    (by decide) (by decide) (by rfl) (by rfl)

/-! ## C1: range and non-emptiness guarantees of the fallback paths -/

theorem rules_riskBase_nonneg : ∀ r ∈ rules, (0 : Int) ≤ r.riskBase := by decide

theorem baseRules_riskBase_nonneg (symptoms : List Symptom) :
    ∀ r ∈ baseRules symptoms, (0 : Int) ≤ r.riskBase := by
  intro r hr
  unfold baseRules at hr
  cases hi : (matchedRules symptoms).isEmpty with
  | true =>
    rw [if_pos hi] at hr
    have hrd : r = defaultRule := by simpa using hr
    rw [hrd]
    decide
  | false =>
    rw [if_neg (by simp [hi])] at hr
    unfold matchedRules at hr
    exact rules_riskBase_nonneg r (List.mem_filter.mp hr).1

theorem baseRules_ne_nil (symptoms : List Symptom) : baseRules symptoms ≠ [] := by
  unfold baseRules
  cases hi : (matchedRules symptoms).isEmpty with
  | true => simp
  | false =>
    rw [if_neg (by simp [hi])]
    intro hnil
    rw [hnil] at hi
    simp at hi

theorem buildConditions_bounds (names : List (List Char)) (tot maxv : Nat) :
    ∀ (rs : List SymptomRule) (idx : Nat),
      (∀ r ∈ rs, (0 : Int) ≤ r.riskBase) → idx + rs.length ≤ 3 →
      ∀ e ∈ buildConditions names tot maxv idx rs,
        0 ≤ e.probability ∧ e.probability ≤ 100 ∧
        0 ≤ e.confidence ∧ e.confidence ≤ 100 := by
  intro rs
  induction rs with
  | nil =>
    intro idx _ _ e he
    simp [buildConditions] at he
  | cons r rs ih =>
    intro idx hnn hlen e he
    simp only [buildConditions, List.mem_cons] at he
    rcases he with he | he
    · subst he
      have hrb : (0 : Int) ≤ r.riskBase := hnn r (List.mem_cons_self r rs)
      have hidx : idx ≤ 2 := by
        simp only [List.length_cons] at hlen
        omega
      have hp : (mkCondition names tot maxv idx r).probability =
          min 90 (r.riskBase + (maxv : Int) * 10 + (idx : Int) * 5) := rfl
      have hc : (mkCondition names tot maxv idx r).confidence =
          min 90 (40 + (tot : Int) * 8 - (idx : Int) * 5) := rfl
      refine ⟨?_, ?_, ?_, ?_⟩
      · rw [hp]
        exact le_min (by omega) (by omega)
      · rw [hp]
        exact le_trans (min_le_left _ _) (by omega)
      · rw [hc]
        refine le_min (by omega) ?_
        have hcast : (idx : Int) ≤ 2 := by exact_mod_cast hidx
        omega
      · rw [hc]
        exact le_trans (min_le_left _ _) (by omega)
    · refine ih (idx + 1) (fun r' h' => hnn r' (List.mem_cons_of_mem r h')) ?_ e he
      simp only [List.length_cons] at hlen
      omega

theorem ruleBasedAssessment_conditions_ne_nil (symptoms : List Symptom) :
    (ruleBasedAssessment symptoms).possibleConditions ≠ [] := by
  have hpc : (ruleBasedAssessment symptoms).possibleConditions =
      buildConditions (lowerNames symptoms) (totalSeverity symptoms)
        (maxSeverity symptoms) 0 ((baseRules symptoms).take 3) := rfl
  rw [hpc]
  cases hbase : baseRules symptoms with
  | nil => exact absurd hbase (baseRules_ne_nil symptoms)
  | cons x xs =>
    simp [List.take, buildConditions]

theorem ruleBasedAssessment_bounds (symptoms : List Symptom) :
    ∀ e ∈ (ruleBasedAssessment symptoms).possibleConditions,
      0 ≤ e.probability ∧ e.probability ≤ 100 ∧
      0 ≤ e.confidence ∧ e.confidence ≤ 100 := by
  have hpc : (ruleBasedAssessment symptoms).possibleConditions =
      buildConditions (lowerNames symptoms) (totalSeverity symptoms)
        (maxSeverity symptoms) 0 ((baseRules symptoms).take 3) := rfl
  rw [hpc]
  refine buildConditions_bounds _ _ _ _ 0 ?_ ?_
  · intro r hr
    exact baseRules_riskBase_nonneg symptoms r (List.take_subset 3 _ hr)
  · rw [List.length_take]
    omega

theorem condInRange_conditionToJson (e : PossibleCondition) :
    condInRange (conditionToJson e) =
      ((decide ((0 : Int) ≤ e.probability) && decide (e.probability ≤ 100)) &&
       (decide ((0 : Int) ≤ e.confidence) && decide (e.confidence ≤ 100))) := rfl

theorem hasValidConditions_assessmentToJson (a : Assessment)
    (hne : a.possibleConditions ≠ [])
    (hb : ∀ e ∈ a.possibleConditions,
      0 ≤ e.probability ∧ e.probability ≤ 100 ∧
      0 ≤ e.confidence ∧ e.confidence ≤ 100) :
    hasValidConditions (assessmentToJson a) = true := by
  obtain ⟨pcs, recs, ga, ws, fu⟩ := a
  cases pcs with
  | nil => exact absurd rfl hne
  | cons c cs =>
    have h1 : hasValidConditions (assessmentToJson ⟨c :: cs, recs, ga, ws, fu⟩) =
        (conditionToJson c :: cs.map conditionToJson).all condInRange := rfl
    rw [h1]
    refine List.all_eq_true.mpr ?_
    intro x hx
    have hx' : ∃ e ∈ c :: cs, conditionToJson e = x := by
      rcases List.mem_cons.mp hx with hx | hx
      · exact ⟨c, List.mem_cons_self c cs, hx.symm⟩
      · obtain ⟨e, he, hex⟩ := List.mem_map.mp hx
        exact ⟨e, List.mem_cons_of_mem c he, hex⟩
    obtain ⟨e, he, hex⟩ := hx'
    have hbe := hb e he
    rw [← hex, condInRange_conditionToJson]
    simp only [Bool.and_eq_true, decide_eq_true_eq]
    exact ⟨⟨hbe.1, hbe.2.1⟩, hbe.2.2.1, hbe.2.2.2⟩

theorem hasValidConditions_parseFallback (response : List Char) :
    hasValidConditions (parseFallbackResponse response) = true := rfl

/-- C1 counterexample: a successful model call whose output is the valid
JSON object `\x7b"possibleConditions":[]\x7d` is returned verbatim by
`analyzeSymptoms` — with zero `possibleConditions` entries — because a
successfully parsed response is not validated at all. -/
theorem c1_counterexample :
    hasValidConditions (analyzeSymptoms
      (ModelOutcome.ok (some (chars "\x7b\"possibleConditions\":[]\x7d"))) []) =
      false := rfl

/-- C1 amended: `analyzeSymptoms` never throws (it is total), and in the
no-credential, thrown-error, and unparseable-output cases its result has
at least one `possibleConditions` entry with all probability and
confidence values in [0,100]; but when the model output parses as JSON
(directly or via brace-slicing) the parsed value is returned without any
validation, so those bounds are not guaranteed for a successful model
call. -/
theorem c1_fallback_guarantees (symptoms : List Symptom) (outcome : ModelOutcome)
    (h : outcome = ModelOutcome.noKey ∨ outcome = ModelOutcome.err ∨
      ∃ content, outcome = ModelOutcome.ok content ∧
        extractJson (content.getD []) = none) :
    hasValidConditions (analyzeSymptoms outcome symptoms) = true := by
  have hrb : hasValidConditions (assessmentToJson (ruleBasedAssessment symptoms)) =
      true :=
    hasValidConditions_assessmentToJson _
      (ruleBasedAssessment_conditions_ne_nil symptoms)
      (ruleBasedAssessment_bounds symptoms)
  rcases h with h | h | ⟨content, hok, hnone⟩
  · subst h; exact hrb
  · subst h; exact hrb
  · subst hok
    show hasValidConditions (match extractJson (content.getD []) with
      | some j => j
      | none => parseFallbackResponse (content.getD [])) = true
    rw [hnone]
    exact hasValidConditions_parseFallback _

/-- Witness for C1 (amended) at a concrete input: a model reply with no
JSON at all falls back to `parseFallbackResponse`, which satisfies the
bounds. -/
theorem c1_fallback_guarantees_witness :
    hasValidConditions (analyzeSymptoms
      (ModelOutcome.ok (some (chars "no json in this reply")))
      [⟨chars "fever", chars "severe"⟩]) = true :=
  c1_fallback_guarantees [⟨chars "fever", chars "severe"⟩]
    (ModelOutcome.ok (some (chars "no json in this reply")))
    (Or.inr (Or.inr ⟨some (chars "no json in this reply"), rfl, by rfl⟩))

/-! ## C3: the heuristic assessment formulas -/

theorem foldl_add_severity (l : List Symptom) (n : Nat) :
    l.foldl (fun sum s => sum + severityScore s.severity) n =
      n + (l.map (fun s => severityScore s.severity)).sum := by
  induction l generalizing n with
  | nil => simp
  | cons s l ih => simp [ih, Nat.add_assoc]

theorem foldr_max_max (xs : List Nat) (a b : Nat) :
    xs.foldr Nat.max (Nat.max a b) = Nat.max b (xs.foldr Nat.max a) := by
  induction xs with
  | nil => exact Nat.max_comm a b
  | cons c xs ih => simp only [List.foldr_cons, ih, Nat.max_left_comm]

theorem foldl_max_eq_foldr (xs : List Nat) (a : Nat) :
    xs.foldl Nat.max a = xs.foldr Nat.max a := by
  induction xs generalizing a with
  | nil => rfl
  | cons x xs ih =>
    simp only [List.foldl_cons, List.foldr_cons]
    rw [ih, foldr_max_max]

theorem buildConditions_getElem (names : List (List Char)) (tot maxv : Nat) :
    ∀ (rs : List SymptomRule) (idx k : Nat),
      (buildConditions names tot maxv idx rs)[k]? =
        (rs[k]?).map (fun r => mkCondition names tot maxv (idx + k) r) := by
  intro rs
  induction rs with
  | nil => intro idx k; simp [buildConditions]
  | cons r rs ih =>
    intro idx k
    cases k with
    | zero => simp [buildConditions]
    | succ k =>
      simp only [buildConditions, List.getElem?_cons_succ]
      rw [ih (idx + 1) k]
      have hidx : idx + 1 + k = idx + (k + 1) := by omega
      rw [hidx]

theorem buildConditions_length (names : List (List Char)) (tot maxv : Nat) :
    ∀ (rs : List SymptomRule) (idx : Nat),
      (buildConditions names tot maxv idx rs).length = rs.length := by
  intro rs
  induction rs with
  | nil => intro idx; rfl
  | cons r rs ih => intro idx; simp [buildConditions, ih]

/-- C3: the heuristic assessor scores severities mild 1 / moderate 2 /
severe 3, takes `totalSeverity` as their sum and `maxSeverity` as their
max (floored at 1), emits at most three conditions, and the entry at rank
`k` — aligned with the `k`-th matched rule, in stable table order —
carries `probability = min(90, riskBase + maxSeverity*10 + k*5)`,
`confidence = min(90, 40 + totalSeverity*8 - k*5)` and the
70/45-thresholded risk level. -/
theorem c3_heuristic_formulas (symptoms : List Symptom) (k : Nat)
    (e : PossibleCondition) (r : SymptomRule) :
    (severityScore (chars "mild") = 1 ∧ severityScore (chars "moderate") = 2 ∧
      severityScore (chars "severe") = 3) ∧
    totalSeverity symptoms = (symptoms.map (fun s => severityScore s.severity)).sum ∧
    maxSeverity symptoms =
      (symptoms.map (fun s => severityScore s.severity)).foldr Nat.max 1 ∧
    (ruleBasedAssessment symptoms).possibleConditions.length ≤ 3 ∧
    ((ruleBasedAssessment symptoms).possibleConditions[k]? = some e →
      (baseRules symptoms)[k]? = some r →
      e.condition = r.condition ∧
      e.probability =
        min 90 (r.riskBase + (maxSeverity symptoms : Int) * 10 + (k : Int) * 5) ∧
      e.confidence =
        min 90 (40 + (totalSeverity symptoms : Int) * 8 - (k : Int) * 5) ∧
      e.riskLevel = (if 70 ≤ e.probability then chars "high"
        else if 45 ≤ e.probability then chars "medium" else chars "low")) := by
  have hpc : (ruleBasedAssessment symptoms).possibleConditions =
      buildConditions (lowerNames symptoms) (totalSeverity symptoms)
        (maxSeverity symptoms) 0 ((baseRules symptoms).take 3) := rfl
  refine ⟨⟨by decide, by decide, by decide⟩, ?_, ?_, ?_, ?_⟩
  · unfold totalSeverity
    rw [foldl_add_severity]
    simp
  · unfold maxSeverity
    rw [← foldl_max_eq_foldr, List.foldl_map]
  · rw [hpc, buildConditions_length, List.length_take]
    exact Nat.min_le_left _ _
  · intro h1 h2
    rw [hpc, buildConditions_getElem] at h1
    obtain ⟨r', hr', he⟩ := Option.map_eq_some'.mp h1
    have hk3 : k < 3 := by
      have hlt := (List.getElem?_eq_some.mp hr').1
      rw [List.length_take] at hlt
      omega
    rw [List.getElem?_take_of_lt hk3, h2] at hr'
    have hrr : r' = r := by injection hr' with hv; exact hv.symm
    subst hrr
    subst he
    refine ⟨rfl, by simp [mkCondition], by simp [mkCondition], rfl⟩

/-- Concrete symptoms for the C3 witness. -/
def demoSymptoms : List Symptom :=
  [⟨chars "Fever", chars "severe"⟩, ⟨chars "cough", chars "mild"⟩]

/-- The condition entry produced at rank 0 for `demoSymptoms`. -/
def demoCondition : PossibleCondition :=
  ⟨chars "Viral respiratory infection", 60, 72,
   chars "Estimated from reported symptoms using heuristic rules.",
   [chars "fever", chars "cough"], chars "medium"⟩

/-- The first matched table rule for `demoSymptoms`. -/
def demoRule : SymptomRule :=
  ⟨[chars "fever", chars "cough"], chars "Viral respiratory infection", 30⟩

/-- Witness for C3 at a concrete input: for severe fever plus mild cough,
rank 0 matches the viral-respiratory rule and carries probability 60,
confidence 72 and risk level "medium". -/
theorem c3_heuristic_formulas_witness :
    (ruleBasedAssessment demoSymptoms).possibleConditions[0]? = some demoCondition ∧
    (demoCondition.condition = demoRule.condition ∧
     demoCondition.probability =
       min 90 (demoRule.riskBase + (maxSeverity demoSymptoms : Int) * 10 +
         ((0 : Nat) : Int) * 5) ∧
     demoCondition.confidence =
       min 90 (40 + (totalSeverity demoSymptoms : Int) * 8 - ((0 : Nat) : Int) * 5) ∧
     demoCondition.riskLevel = (if 70 ≤ demoCondition.probability then chars "high"
       else if 45 ≤ demoCondition.probability then chars "medium" else chars "low")) :=
  ⟨by rfl,
   (c3_heuristic_formulas demoSymptoms 0 demoCondition demoRule).2.2.2.2
     (by rfl) (by rfl)⟩

